import Mathlib

/-!
Verification of the core invariant checks of the LFortran ASR verifier and of the
declaration-phase symbol-table visitor, as implemented in
`src/src/libasr/asr_verify.cpp` (the file also contains the
`LCompilers::LFortran::SymbolTableVisitor` resolver pass).

Each checked fragment of the C++ code is shallowly embedded as an executable
Lean definition; the claims about the code are then proved or refuted against
these definitions.  Comments on every definition name the C++ function and line
range it embeds.
-/

namespace LFortranVerify

/- ===================================================================
   C4.  VerifyVisitor dependency checks for Function symbols.
   =================================================================== -/

/-- Embeds `VerifyVisitor::verify_unique_dependencies` (asr_verify.cpp lines
305-317): walk the dependency list with a growing set of already-seen names
and fail (raise, here return `false`) as soon as a name repeats.  The `seen`
argument is the accumulating `dependencies_set`. -/
def verify_unique_dependencies (seen : List String) : List String → Bool
  | [] => true
  | d :: rest => if d ∈ seen then false else verify_unique_dependencies (d :: seen) rest

/-- Embeds the dependency-related checks of `VerifyVisitor::visit_Function`
(asr_verify.cpp lines 479-510): uniqueness of the stored list, resolvability of
every stored name through the parent symbol table (`resolve d = true` models
`x_parent_symtab->resolve_symbol(d) != nullptr`; `resolve_symbol` itself lives
in `containers.h`, outside the excerpt), no stored name missing from the
walked set, and no walked name missing from the stored list.  `walked` is the
`function_dependencies` vector the verifier accumulated while visiting the
function body (call sites, lines 1033-1041 and 1136-1150). -/
def visit_Function_dependency_checks (resolve : String → Bool) (deps walked : List String) : Bool :=
  verify_unique_dependencies [] deps &&
  deps.all (fun d => resolve d) &&
  deps.all (fun d => decide (d ∈ walked)) &&
  walked.all (fun d => decide (d ∈ deps))

theorem verify_unique_dependencies_iff (seen deps : List String) :
    verify_unique_dependencies seen deps = true ↔ deps.Nodup ∧ ∀ d ∈ deps, d ∉ seen := by
  induction deps generalizing seen with
  | nil => simp [verify_unique_dependencies]
  | cons d rest ih =>
    simp only [verify_unique_dependencies]
    by_cases hd : d ∈ seen
    · simp only [hd, if_pos, List.nodup_cons]
      constructor
      · intro h; exact absurd h (by simp)
      · rintro ⟨-, h⟩
        exact absurd hd (h d (by simp))
    · rw [if_neg hd, ih]
      constructor
      · rintro ⟨hnd, hmem⟩
        have hdr : d ∉ rest := by
          intro hin
          exact absurd (hmem d hin) (by simp)
        refine ⟨List.nodup_cons.mpr ⟨hdr, hnd⟩, ?_⟩
        intro e he
        rcases List.mem_cons.mp he with rfl | he2
        · exact hd
        · intro hs
          exact (hmem e he2) (List.mem_cons.mpr (Or.inr hs))
      · rintro ⟨hnd, hmem⟩
        rcases List.nodup_cons.mp hnd with ⟨hdr, hnr⟩
        refine ⟨hnr, ?_⟩
        intro e he hseen
        rcases List.mem_cons.mp hseen with rfl | hs
        · exact hdr he
        · exact (hmem e (List.mem_cons.mpr (Or.inr he))) hs

/-- C4: the Verifier accepts a Function dependency list exactly when the list
has no duplicate names, every listed name resolves through the parent symbol
table, and the list equals, as a set, the dependency set the Verifier itself
accumulated while walking the function. -/
theorem C4_function_dependency_checks_iff (resolve : String → Bool)
    (deps walked : List String) :
    visit_Function_dependency_checks resolve deps walked = true ↔
      deps.Nodup ∧ (∀ d ∈ deps, resolve d = true) ∧ (∀ d, d ∈ deps ↔ d ∈ walked) := by
  simp only [visit_Function_dependency_checks, Bool.and_eq_true, List.all_eq_true,
    decide_eq_true_eq, verify_unique_dependencies_iff]
  constructor
  · rintro ⟨⟨⟨⟨hnd, -⟩, hres⟩, hsub1⟩, hsub2⟩
    exact ⟨hnd, hres, fun d => ⟨fun h => hsub1 d h, fun h => hsub2 d h⟩⟩
  · rintro ⟨hnd, hres, hset⟩
    exact ⟨⟨⟨⟨hnd, by simp⟩, hres⟩, fun d h => (hset d).mp h⟩, fun d h => (hset d).mpr h⟩

/- ===================================================================
   C8.  VerifyVisitor::visit_Struct alignment check.
   =================================================================== -/

/-- Reinterpret an unsigned 64-bit residue as a signed two-complement value. -/
def wrap64 (a : Int) : Int := (a + 2 ^ 63) % 2 ^ 64 - 2 ^ 63

/-- The unsigned 64-bit bit pattern of an integer (two-complement). -/
def toU64 (a : Int) : Nat := (a % 2 ^ 64).toNat

/-- Bitwise AND of two `int64_t` values, via their 64-bit bit patterns. -/
def and64 (a b : Int) : Int := wrap64 (Int.ofNat (Nat.land (toU64 a) (toU64 b)))

/-- Wrapping subtraction of two `int64_t` values. -/
def sub64 (a b : Int) : Int := wrap64 (a - b)

/-- Embeds the alignment check of `VerifyVisitor::visit_Struct` (asr_verify.cpp
lines 587-600).  The argument models the struct alignment field:
`none` when `x.m_alignment` is absent (the visitor returns early, accepting);
`some none` when the alignment expression has no compile-time value
(`ASRUtils::expr_value` / `extract_value` fail, rejecting); `some (some v)`
when it evaluates to the `int64_t` constant `v`, which is then required to be
nonzero with `v & (v - 1) == 0` in wrapping 64-bit arithmetic. -/
def visit_Struct_alignment_check : Option (Option Int) → Bool
  | none => true
  | some none => false
  | some (some v) =>
    let a := wrap64 v
    decide (a ≠ 0) && decide (and64 a (sub64 a 1) = 0)

/-- C8: evaluation of the alignment check.  The check correctly rejects a
non-constant alignment, zero, an ordinary negative value and a non-power of
two, and accepts positive powers of two; but it also accepts the negative
value -2^63 (INT64_MIN), whose bit pattern satisfies `a & (a - 1) == 0` after
the wraparound of `a - 1`, contradicting the requirement (and the check's own
error message) that the alignment be a positive power of two. -/
theorem C8_alignment_check_eval :
    visit_Struct_alignment_check (some (some (-(2 ^ 63)))) = true ∧
    visit_Struct_alignment_check (some (some 1)) = true ∧
    visit_Struct_alignment_check (some (some 8)) = true ∧
    visit_Struct_alignment_check (some (some 0)) = false ∧
    visit_Struct_alignment_check (some (some (-4))) = false ∧
    visit_Struct_alignment_check (some (some 6)) = false ∧
    visit_Struct_alignment_check (some none) = false ∧
    visit_Struct_alignment_check none = true := by
  decide

/- ===================================================================
   C9.  SymbolTableVisitor::populate_implicit_dictionary.
   =================================================================== -/

/-- The ASR types that can appear in the per-scope implicit dictionary. -/
inductive ImplType
  | integer (kind : Nat)
  | real (kind : Nat)
  | complexTy (kind : Nat)
  | logical (kind : Nat)
  | charTy (len : Int)
deriving DecidableEq, Repr

/-- The implicit dictionary: a `std::map<std::string, ASR::ttype_t*>` whose
keys are single-letter strings.  A letter is embedded as its character code
(97 is a, 104 is h, 105 is i, 110 is n, 111 is o, 122 is z), and the map as a
key-sorted association list from the letter code to an optional type (`none`
models a null `ASR::ttype_t*`). -/
abbrev ImplDict := List (Nat × Option ImplType)

/-- Sorted-map insertion, mirroring `std::map` assignment through
`operator[]`: overwrite an existing key, otherwise insert in key order. -/
def dictInsert (k : Nat) (v : Option ImplType) : ImplDict → ImplDict
  | [] => [(k, v)]
  | (k2, v2) :: rest =>
    if k = k2 then (k, v) :: rest
    else if k < k2 then (k, v) :: (k2, v2) :: rest
    else (k2, v2) :: dictInsert k v rest

/-- Lookup in the embedded dictionary; `none` when the key is absent. -/
def dictLookup : ImplDict → Nat → Option (Option ImplType)
  | [], _ => none
  | (k2, v) :: rest, k => if k = k2 then some v else dictLookup rest k

/-- The inclusive range of character codes walked by the C++ loops
`for (char ch = lo; ch <= hi; ch++)`. -/
def codeRange (lo hi : Nat) : List Nat := List.range' lo (hi + 1 - lo)

/-- Embeds `SymbolTableVisitor::populate_implicit_dictionary` (asr_verify.cpp
lines 1542-1554): letters i through n (codes 105-110) map to
`Integer(compiler_options.po.default_integer_kind)`, then o through z
(codes 111-122) and a through h (codes 97-104) map to `Real(4)`, inserted
into the (initially empty) dictionary in exactly that loop order. -/
def populate_implicit_dictionary (default_integer_kind : Nat) : ImplDict :=
  (codeRange 97 104).foldl (fun d c => dictInsert c (some (ImplType.real 4)) d)
    ((codeRange 111 122).foldl (fun d c => dictInsert c (some (ImplType.real 4)) d)
      ((codeRange 105 110).foldl
        (fun d c => dictInsert c (some (ImplType.integer default_integer_kind)) d) []))

/-- C9: for every configured default integer kind, the freshly populated
implicit dictionary maps each letter a through h (codes 97-104) to Real of
kind 4, each letter i through n (codes 105-110) to Integer of the configured
default integer kind, and each letter o through z (codes 111-122) to Real of
kind 4 — and contains nothing else. -/
theorem C9_populate_implicit_dictionary (dik : Nat) :
    (codeRange 97 122).map (fun c => (c, dictLookup (populate_implicit_dictionary dik) c)) =
      (codeRange 97 104).map (fun c => (c, some (some (ImplType.real 4)))) ++
      (codeRange 105 110).map (fun c => (c, some (some (ImplType.integer dik)))) ++
      (codeRange 111 122).map (fun c => (c, some (some (ImplType.real 4)))) ∧
    populate_implicit_dictionary dik =
      (codeRange 97 104).map (fun c => (c, some (ImplType.real 4))) ++
      (codeRange 105 110).map (fun c => (c, some (ImplType.integer dik))) ++
      (codeRange 111 122).map (fun c => (c, some (ImplType.real 4))) := by
  have h : populate_implicit_dictionary dik =
      (codeRange 97 104).map (fun c => (c, some (ImplType.real 4))) ++
      (codeRange 105 110).map (fun c => (c, some (ImplType.integer dik))) ++
      (codeRange 111 122).map (fun c => (c, some (ImplType.real 4))) := by
    simp [populate_implicit_dictionary, codeRange, dictInsert, List.range']
  refine ⟨?_, h⟩
  rw [h]
  simp [codeRange, dictLookup, List.range']

/- ===================================================================
   C10.  SymbolTableVisitor::process_implicit_statements.
   =================================================================== -/

/-- Models `to_lower` from the libasr string utilities (outside the excerpt):
lowercase an ASCII character code. -/
def to_lower_code (c : Nat) : Nat := if 65 ≤ c ∧ c ≤ 90 then c + 32 else c

/-- An `AST::LetterSpec_t`: an optional range start letter and the range end
letter (`m_start` may be null, in which case only `m_end` is set). -/
structure LetterSpec where
  start : Option Nat
  stop : Nat
deriving DecidableEq, Repr

/-- An implicit statement as dispatched by
`SymbolTableVisitor::process_implicit_statements`: either `implicit none`
(`AST::ImplicitNone_t`) or an `AST::Implicit_t` carrying specs.  Each spec is
embedded as the ASR type it assigns (the conversion from the syntactic
`AttrType` to this type, lines 1586-1647, is collapsed to its result because
its helpers `extract_kind` and `extract_len` live outside the excerpt)
together with its letter specs. -/
inductive ImplicitStmt
  | implicitNone
  | implicitDecl (specs : List (ImplType × List LetterSpec))
deriving DecidableEq, Repr

/-- Embeds the letter-spec loop of `process_implicit_statements` (asr_verify.cpp
lines 1649-1661): a spec with no start letter assigns the type to the single
lowercased end letter, otherwise to every letter of the inclusive range. -/
def applyLetterSpec (ty : ImplType) (d : ImplDict) (ls : LetterSpec) : ImplDict :=
  match ls.start with
  | none => dictInsert (to_lower_code ls.stop) (some ty) d
  | some st =>
    (codeRange st ls.stop).foldl (fun d2 c => dictInsert (to_lower_code c) (some ty) d2) d

/-- Embeds the statement loop of `SymbolTableVisitor::process_implicit_statements`
(asr_verify.cpp lines 1566-1663).  `n_implicit` is the total number of implicit
statements of the scope (`x.n_implicit`).  An `implicit none` with
`n_implicit != 1` raises the diagnostic and aborts (`Except.error` models the
thrown `SemanticAbort` with its message); a sole `implicit none` sets every
entry of the dictionary to a null type; an `Implicit_t` statement applies its
specs in order. -/
def process_implicit_loop (n_implicit : Nat) :
    List ImplicitStmt → ImplDict → Except String ImplDict
  | [], d => Except.ok d
  | ImplicitStmt.implicitNone :: rest, d =>
    if n_implicit ≠ 1 then
      Except.error "No other implicit statement is allowed when \x27implicit none\x27 is used"
    else
      process_implicit_loop n_implicit rest (d.map (fun e => (e.1, none)))
  | ImplicitStmt.implicitDecl specs :: rest, d =>
    process_implicit_loop n_implicit rest
      (specs.foldl (fun d2 sp => sp.2.foldl (applyLetterSpec sp.1) d2) d)

/-- Embeds `SymbolTableVisitor::process_implicit_statements` (asr_verify.cpp
lines 1556-1664): inside a module (non-empty `implicit_stack`), a non-interface
scope with no implicit statement inherits the enclosing dictionary
(`implicit_stack.back()`); otherwise the statement loop runs. -/
def process_implicit_statements (implicit_stack : List ImplDict) (is_interface : Bool)
    (stmts : List ImplicitStmt) (dict : ImplDict) : Except String ImplDict :=
  if 0 < implicit_stack.length ∧ stmts.length = 0 ∧ is_interface = false then
    Except.ok (implicit_stack.getLastD dict)
  else
    process_implicit_loop stmts.length stmts dict

theorem process_implicit_loop_error (n : Nat) (stmts : List ImplicitStmt) (d : ImplDict)
    (hmem : ImplicitStmt.implicitNone ∈ stmts) (hn : n ≠ 1) :
    process_implicit_loop n stmts d =
      Except.error "No other implicit statement is allowed when \x27implicit none\x27 is used" := by
  induction stmts generalizing d with
  | nil => cases hmem
  | cons s rest ih =>
    cases s with
    | implicitNone => simp [process_implicit_loop, hn]
    | implicitDecl specs =>
      have hrest : ImplicitStmt.implicitNone ∈ rest := by
        rcases List.mem_cons.mp hmem with h | h
        · cases h
        · exact h
      simp only [process_implicit_loop]
      exact ih _ hrest

/-- C10: a scope whose implicit-statement list contains an `implicit none`
along with any other implicit statement (total length different from one)
makes the Resolver raise exactly the diagnostic
"No other implicit statement is allowed when 'implicit none' is used" and
abort; when `implicit none` is the sole implicit statement, every letter entry
of the implicit dictionary is set to an absent type. -/
theorem C10_process_implicit_statements (stack : List ImplDict) (intf : Bool)
    (stmts : List ImplicitStmt) (d : ImplDict) :
    (ImplicitStmt.implicitNone ∈ stmts → stmts.length ≠ 1 →
      process_implicit_statements stack intf stmts d =
        Except.error "No other implicit statement is allowed when \x27implicit none\x27 is used") ∧
    (stmts = [ImplicitStmt.implicitNone] →
      process_implicit_statements stack intf stmts d =
        Except.ok (d.map (fun e => (e.1, none)))) ∧
    (∀ p ∈ d.map (fun e : Nat × Option ImplType => (e.1, (none : Option ImplType))),
      p.2 = none) := by
  refine ⟨?_, ?_, ?_⟩
  · intro hmem hlen
    have hne : stmts.length ≠ 0 := by
      intro h0
      rw [List.length_eq_zero] at h0
      subst h0
      cases hmem
    rw [process_implicit_statements, if_neg (by
      rintro ⟨-, h0, -⟩
      exact hne h0)]
    exact process_implicit_loop_error _ _ _ hmem hlen
  · rintro rfl
    rw [process_implicit_statements, if_neg (by
      rintro ⟨-, h0, -⟩
      simp at h0)]
    simp [process_implicit_loop]
  · intro p hp
    rcases List.mem_map.mp hp with ⟨e, -, rfl⟩
    rfl

/-- Witness for C10 at concrete inputs: two `implicit none` statements raise
the diagnostic, and a sole `implicit none` clears the dictionary entry of
letter i (code 105). -/
theorem C10_process_implicit_statements_witness :
    process_implicit_statements [] false
        [ImplicitStmt.implicitNone, ImplicitStmt.implicitNone] [] =
      Except.error "No other implicit statement is allowed when \x27implicit none\x27 is used" ∧
    process_implicit_statements [] false [ImplicitStmt.implicitNone]
        [(105, some (ImplType.integer 4))] =
      Except.ok [(105, none)] := by
  constructor
  · exact (C10_process_implicit_statements [] false
      [ImplicitStmt.implicitNone, ImplicitStmt.implicitNone] []).1 (by simp) (by simp)
  · have h := (C10_process_implicit_statements [] false [ImplicitStmt.implicitNone]
      [(105, some (ImplType.integer 4))]).2.1 rfl
    simpa using h

/- ===================================================================
   C7.  SymbolTableVisitor::perform_argument_mapping (ENTRY rewriting).
   =================================================================== -/

/-- Lexicographic order on character lists, the order of `std::string`
comparison (for the ASCII names involved, byte order and character order
coincide). -/
def charListLt : List Char → List Char → Bool
  | [], [] => false
  | [], _ :: _ => true
  | _ :: _, [] => false
  | a :: as, b :: bs =>
    if a < b then true
    else if b < a then false
    else charListLt as bs

/-- The `std::string` less-than used by `std::set<std::string>`. -/
def strLt (a b : String) : Bool := charListLt a.data b.data

/-- Insertion into a `std::set<std::string>`: keep the list sorted in
lexicographic string order and drop duplicates. -/
def insertSortedSet (s : String) : List String → List String
  | [] => [s]
  | t :: rest =>
    if strLt s t then s :: t :: rest
    else if strLt t s then t :: insertSortedSet s rest
    else t :: rest

/-- Builds the `std::set<std::string>` of a list of names, as its sorted
duplicate-free element list (the iteration order of the C++ set). -/
def stdSetOfList (l : List String) : List String :=
  l.foldl (fun acc s => insertSortedSet s acc) []

/-- Index of a name in a name list, mirroring
`std::distance(begin, std::find(begin, end, a))`; `none` when absent. -/
def findIndexIn (l : List String) (s : String) : Option Nat :=
  l.findIdx? (fun t => t == s)

/-- Embeds `SymbolTableVisitor::perform_argument_mapping` (asr_verify.cpp lines
2198-2244).  `args` are the subroutine's own formal names (`x.m_args`),
`entries` the entry functions of the subroutine in `std::map` name order,
each with its formal names (`entry_function_args`).  Returns the master
function's formal list — `entry__lcompilers` prepended to the sorted
duplicate-free set of all formal names — together with the argument-mapping
rows recorded for the subroutine itself and for each entry
(`entry_function_arguments_mapping`). -/
def perform_argument_mapping (args : List String) (entries : List (String × List String)) :
    List String × List Nat × List (String × List Nat) :=
  let argNames := args ++ entries.foldl (fun acc e => acc ++ e.2) []
  let argNamesUnique := "entry__lcompilers" :: stdSetOfList argNames
  let subRow := args.foldl (fun acc a =>
    match findIndexIn argNamesUnique a with
    | some i => acc ++ [i]
    | none => acc) []
  let entryRows := entries.map (fun e =>
    (e.1, e.2.foldl (fun acc a =>
      match findIndexIn argNamesUnique a with
      | some i => acc ++ [i]
      | none => acc) []))
  (argNamesUnique, subRow, entryRows)

/-- Embeds the symbol emission of the ENTRY rewrite in
`SymbolTableVisitor::visit_Subroutine` (asr_verify.cpp lines 2590 and
2611-2622): the subroutine symbol itself is added first, then — because the
body contains ENTRY statements — one template entry function per entry (in
`std::map` name order) and finally the master function named
`<subroutine>_main__lcompilers`. -/
def entry_rewrite_symbols (sym_name : String) (entries : List (String × List String)) :
    List String :=
  sym_name :: (entries.map (fun e => e.1) ++ [sym_name ++ "_main__lcompilers"])

/-- C7: for a subroutine s with formals (a, b) containing `ENTRY e(b, c)`, the
Resolver emits the three symbols s, e and s_main__lcompilers, the master
formal list is [entry__lcompilers, a, b, c], and the argument-mapping table
records [1, 2] for s and [2, 3] for e as indices into the master formals. -/
theorem C7_entry_rewrite :
    perform_argument_mapping ["a", "b"] [("e", ["b", "c"])] =
      (["entry__lcompilers", "a", "b", "c"], [1, 2], [("e", [2, 3])]) ∧
    entry_rewrite_symbols "s" [("e", ["b", "c"])] = ["s", "e", "s_main__lcompilers"] := by
  constructor
  · decide
  · decide

/- ===================================================================
   C5.  VerifyVisitor::visit_Assignment.
   =================================================================== -/

/-- The `ASR::intentType` values relevant to assignment checking. -/
inductive IntentKind
  | intentIn
  | intentOut
  | intentInOut
  | intentLocal
  | intentReturnVar
  | intentUnspecified
deriving DecidableEq, Repr

/-- The `ASR::storage_typeType` values. -/
inductive StorageKind
  | defaultStorage
  | parameterStorage
  | saveStorage
deriving DecidableEq, Repr

/-- The fields of an `ASR::Variable_t` read by `visit_Assignment`. -/
structure TargetVariable where
  intent : IntentKind
  storage : StorageKind
deriving DecidableEq, Repr

/-- The assignment-target expression, as case-analysed by
`VerifyVisitor::visit_Assignment` (asr_verify.cpp lines 365-401).
`varTarget pe nm a` is a `Var` expression: `pe` is the symbol behind
`ASRUtils::symbol_get_past_external(target_Var->m_v)` when that symbol is a
`Variable_t` (`none` when it is some other symbol kind), `nm` is
`ASRUtils::symbol_name(target_Var->m_v)` (the key used for `const_assigned`),
and `a` tells whether the target expression type is `Allocatable`
(`ASRUtils::is_allocatable`).  `structMemberTarget ma ba` is a
`StructInstanceMember` expression whose member type is allocatable (`ma`) or
whose base variable `m_v` is allocatable (`ba`).  `otherTarget a` is any other
expression form with its allocatability. -/
inductive AsgTarget
  | varTarget (pastExternal : Option TargetVariable) (symName : String) (isAlloc : Bool)
  | structMemberTarget (memberIsAlloc : Bool) (baseIsAlloc : Bool)
  | otherTarget (isAlloc : Bool)
deriving DecidableEq, Repr

/-- Embeds `ASRUtils::is_allocatable` applied to the target expression: whether
the type of the expression itself is `Allocatable`. -/
def asgTargetIsAllocatable : AsgTarget → Bool
  | AsgTarget.varTarget _ _ a => a
  | AsgTarget.structMemberTarget ma _ => ma
  | AsgTarget.otherTarget a => a

/-- The allocatability computed by the realloc-lhs block of `visit_Assignment`
(asr_verify.cpp lines 390-398): the target expression's own allocatability,
additionally OR-ed with the base variable's allocatability when the target is
a `StructInstanceMember`. -/
def reallocTargetAllocatable : AsgTarget → Bool
  | AsgTarget.structMemberTarget ma ba => ma || ba
  | t => asgTargetIsAllocatable t

/-- Embeds the first block of `VerifyVisitor::visit_Assignment` (asr_verify.cpp
lines 366-387): when the target is a `Var` whose past-external symbol is a
`Variable`, reject intent `in`; for parameter storage, reject a
counter/name pair already recorded in `const_assigned` and otherwise record
it.  `counter` is `current_symtab->counter`; `const_assigned` is the
verifier's `std::set<std::pair<uint64_t, std::string>>`, embedded as a list
(only membership and insertion are used). -/
def assignment_target_check (counter : Nat) (const_assigned : List (Nat × String)) :
    AsgTarget → Option (List (Nat × String))
  | AsgTarget.varTarget (some v) nm _ =>
    if v.intent = IntentKind.intentIn then none
    else if v.storage = StorageKind.parameterStorage then
      if (counter, nm) ∈ const_assigned then none
      else some ((counter, nm) :: const_assigned)
    else some const_assigned
  | _ => some const_assigned

/-- Embeds `VerifyVisitor::visit_Assignment` (asr_verify.cpp lines 365-401):
the target/parameter block followed by the post-link realloc-lhs block
(lines 390-398).  The result is `none` when some `require` fails
(`VerifyAbort` unwinds), otherwise the updated `const_assigned`. -/
def visit_Assignment_check (check_external : Bool) (counter : Nat)
    (const_assigned : List (Nat × String)) (target : AsgTarget) (realloc_lhs : Bool) :
    Option (List (Nat × String)) :=
  match assignment_target_check counter const_assigned target with
  | none => none
  | some st2 =>
    if check_external && realloc_lhs then
      if reallocTargetAllocatable target then some st2 else none
    else some st2

/-- Whether the target is a variable of intent `in`. -/
def targetIntentIn : AsgTarget → Bool
  | AsgTarget.varTarget (some v) _ _ => decide (v.intent = IntentKind.intentIn)
  | _ => false

/-- The `const_assigned` key of a parameter-storage variable target. -/
def targetParamKey : AsgTarget → Option String
  | AsgTarget.varTarget (some v) nm _ =>
    if v.storage = StorageKind.parameterStorage then some nm else none
  | _ => none

/-- C5 counterexample: in post-link mode (`check_external = true`), an
assignment with the realloc-lhs flag whose target is a struct-instance-member
that is itself NOT allocatable (so the claim requires rejection) is
nevertheless accepted by the Verifier when the member's base variable is
allocatable. -/
theorem C5_realloc_struct_member_counterexample :
    asgTargetIsAllocatable (AsgTarget.structMemberTarget false true) = false ∧
    visit_Assignment_check true 0 [] (AsgTarget.structMemberTarget false true) true =
      some [] := by
  exact ⟨rfl, rfl⟩

/-- C5 (amended): the Verifier rejects an assignment exactly when the target
variable has intent `in`, or the target is a parameter-storage variable
already assigned in the same scope (keyed by symbol-table counter and
variable name), or post-link realloc-lhs is set and the target is neither
allocatable nor a struct-instance-member with an allocatable base variable;
moreover a successful assignment to a parameter-storage target records its
scope/name key, so a second assignment to it in the same scope is rejected. -/
theorem assignment_target_check_none_iff (ctr : Nat) (st : List (Nat × String))
    (tgt : AsgTarget) :
    assignment_target_check ctr st tgt = none ↔
      targetIntentIn tgt = true ∨ (∃ nm, targetParamKey tgt = some nm ∧ (ctr, nm) ∈ st) := by
  rcases tgt with ⟨pe, nm, al⟩ | ⟨ma, ba⟩ | al
  · rcases pe with _ | v
    · simp [assignment_target_check, targetIntentIn, targetParamKey]
    · by_cases hI : v.intent = IntentKind.intentIn
      · simp [assignment_target_check, targetIntentIn, hI]
      · by_cases hP : v.storage = StorageKind.parameterStorage
        · by_cases hM : (ctr, nm) ∈ st
          · simp [assignment_target_check, targetIntentIn, targetParamKey, hI, hP, hM]
          · simp [assignment_target_check, targetIntentIn, targetParamKey, hI, hP, hM]
        · simp [assignment_target_check, targetIntentIn, targetParamKey, hI, hP]
  · simp [assignment_target_check, targetIntentIn, targetParamKey]
  · simp [assignment_target_check, targetIntentIn, targetParamKey]

theorem assignment_target_check_some (ctr : Nat) (st st2 : List (Nat × String))
    (tgt : AsgTarget) (hres : assignment_target_check ctr st tgt = some st2) :
    ∀ nm, targetParamKey tgt = some nm → st2 = (ctr, nm) :: st := by
  intro nm hkey
  rcases tgt with ⟨pe, nm2, al⟩ | ⟨ma, ba⟩ | al
  · rcases pe with _ | v
    · simp [targetParamKey] at hkey
    · by_cases hP : v.storage = StorageKind.parameterStorage
      · simp only [targetParamKey, if_pos hP, Option.some.injEq] at hkey
        subst hkey
        by_cases hI : v.intent = IntentKind.intentIn
        · simp [assignment_target_check, hI] at hres
        · by_cases hM : (ctr, nm2) ∈ st
          · simp [assignment_target_check, hI, hP, hM] at hres
          · simp only [assignment_target_check, if_neg hI, if_pos hP, if_neg hM,
              Option.some.injEq] at hres
            exact hres.symm
      · simp [targetParamKey, hP] at hkey
  · simp [targetParamKey] at hkey
  · simp [targetParamKey] at hkey

/-- C5 (amended): the Verifier rejects an assignment exactly when the target
variable has intent `in`, or the target is a parameter-storage variable
already assigned in the same scope (keyed by symbol-table counter and
variable name), or post-link realloc-lhs is set and the target is neither
allocatable nor a struct-instance-member with an allocatable base variable;
moreover a successful assignment to a parameter-storage target records its
scope/name key, so a second assignment to the same target in the same scope
is rejected. -/
theorem C5_visit_Assignment_characterization (ce : Bool) (ctr : Nat)
    (st : List (Nat × String)) (tgt : AsgTarget) (realloc : Bool) :
    (visit_Assignment_check ce ctr st tgt realloc = none ↔
      (targetIntentIn tgt = true ∨
       (∃ nm, targetParamKey tgt = some nm ∧ (ctr, nm) ∈ st) ∨
       (ce = true ∧ realloc = true ∧ reallocTargetAllocatable tgt = false))) ∧
    (∀ st2, visit_Assignment_check ce ctr st tgt realloc = some st2 →
      ∀ nm, targetParamKey tgt = some nm → (ctr, nm) ∈ st2) ∧
    (∀ st2 ce2 realloc2, visit_Assignment_check ce ctr st tgt realloc = some st2 →
      (∃ nm, targetParamKey tgt = some nm) →
      visit_Assignment_check ce2 ctr st2 tgt realloc2 = none) := by
  have hsome : ∀ st2, visit_Assignment_check ce ctr st tgt realloc = some st2 →
      assignment_target_check ctr st tgt = some st2 := by
    intro st2 h
    unfold visit_Assignment_check at h
    rcases htc : assignment_target_check ctr st tgt with _ | stx
    · rw [htc] at h
      exact absurd h (by simp)
    · rw [htc] at h
      rcases hcr : ce && realloc with _ | _
      · rw [hcr] at h
        simp only [Bool.false_eq_true, if_false, Option.some.injEq] at h
        rw [h]
      · rw [hcr] at h
        by_cases hra : reallocTargetAllocatable tgt = true
        · simp only [if_true, hra, Option.some.injEq] at h
          rw [h]
        · simp only [if_true, hra, Bool.false_eq_true, if_false] at h
          exact absurd h (by simp)
  refine ⟨?_, ?_, ?_⟩
  · constructor
    · intro h
      unfold visit_Assignment_check at h
      rcases htc : assignment_target_check ctr st tgt with _ | stx
      · rcases (assignment_target_check_none_iff ctr st tgt).mp htc with h1 | h2
        · exact Or.inl h1
        · exact Or.inr (Or.inl h2)
      · rw [htc] at h
        rcases hcr : ce && realloc with _ | _
        · rw [hcr] at h
          simp at h
        · rw [hcr] at h
          by_cases hra : reallocTargetAllocatable tgt = true
          · simp [hra] at h
          · refine Or.inr (Or.inr ⟨((Bool.and_eq_true ce realloc).mp hcr).1,
              ((Bool.and_eq_true ce realloc).mp hcr).2, ?_⟩)
            simpa using hra
    · intro h
      unfold visit_Assignment_check
      rcases h with h1 | h2 | h3
      · rw [(assignment_target_check_none_iff ctr st tgt).mpr (Or.inl h1)]
      · rw [(assignment_target_check_none_iff ctr st tgt).mpr (Or.inr h2)]
      · rcases htc : assignment_target_check ctr st tgt with _ | stx
        · rfl
        · rcases h3 with ⟨hce, hrl, hra⟩
          rw [hce, hrl]
          simp [hra]
  · intro st2 hres nm hkey
    have := assignment_target_check_some ctr st st2 tgt (hsome st2 hres) nm hkey
    rw [this]
    exact List.mem_cons_self _ _
  · intro st2 ce2 realloc2 hres ⟨nm, hkey⟩
    have hmem : (ctr, nm) ∈ st2 := by
      have := assignment_target_check_some ctr st st2 tgt (hsome st2 hres) nm hkey
      rw [this]
      exact List.mem_cons_self _ _
    unfold visit_Assignment_check
    rw [(assignment_target_check_none_iff ctr st2 tgt).mpr (Or.inr ⟨nm, hkey, hmem⟩)]

/-- Witness for C5 at concrete inputs: an intent-in variable target is
rejected, and a parameter-storage target whose scope/name key was already
recorded is rejected. -/
theorem C5_visit_Assignment_witness :
    visit_Assignment_check false 7 []
      (AsgTarget.varTarget (some ⟨IntentKind.intentIn, StorageKind.defaultStorage⟩) "x" false)
      false = none ∧
    visit_Assignment_check false 7 [(7, "n")]
      (AsgTarget.varTarget (some ⟨IntentKind.intentLocal, StorageKind.parameterStorage⟩) "n"
        false) false = none :=
  ⟨((C5_visit_Assignment_characterization false 7 []
      (AsgTarget.varTarget (some ⟨IntentKind.intentIn, StorageKind.defaultStorage⟩) "x" false)
      false).1).mpr (Or.inl (by decide)),
   ((C5_visit_Assignment_characterization false 7 [(7, "n")]
      (AsgTarget.varTarget (some ⟨IntentKind.intentLocal, StorageKind.parameterStorage⟩) "n"
        false) false).1).mpr (Or.inr (Or.inl ⟨"n", by decide, by decide⟩))⟩

/- ===================================================================
   C6.  VerifyVisitor type-shape checks:
        visit_Array / visit_Pointer / visit_Allocatable.
   =================================================================== -/

/-- The `ASR::array_physical_typeType` values distinguished by the shape
checks (every other physical kind behaves like `OtherArrayPhys` there). -/
inductive ArrayPhys
  | DescriptorArray
  | FixedSizeArray
  | PointerToDataArray
  | SIMDArray
  | OtherArrayPhys
deriving DecidableEq, Repr

/-- An `ASR::dimension_t` as the shape checks see it: whether the start bound
expression and the length expression are present (non-null).  The content of
the bound expressions is checked elsewhere (`visit_dimension` type-checks
them); only presence matters for the shape rules. -/
structure ADim where
  hasStart : Bool
  hasLength : Bool
deriving DecidableEq, Repr

/-- The ASR type tree as walked by the shape checks.  Scalar leaves are
collapsed into representative constructors: `intScalar` for the numeric and
logical scalars, `stringScalar` for `String` (distinguished because
`visit_Array` treats character element types specially), `otherScalar` for
the remaining leaf types.  `arrayT`, `pointerT` and `allocatableT` carry the
structure that `visit_Array`, `visit_Pointer` and `visit_Allocatable`
(asr_verify.cpp lines 1231-1273) inspect. -/
inductive TType
  | intScalar
  | stringScalar
  | otherScalar
  | arrayT (elem : TType) (dims : List ADim) (phys : ArrayPhys)
  | pointerT (t : TType)
  | allocatableT (t : TType)
deriving DecidableEq, Repr

/-- Whether a type node is `Allocatable` (`ASR::is_a<ASR::Allocatable_t>`). -/
def isAllocT : TType → Bool
  | TType.allocatableT _ => true
  | _ => false

/-- Whether a type node is `Array` (`ASR::is_a<ASR::Array_t>`). -/
def isArrayT : TType → Bool
  | TType.arrayT _ _ _ => true
  | _ => false

/-- Whether a type node is `Pointer` (`ASR::is_a<ASR::Pointer_t>`). -/
def isPointerT : TType → Bool
  | TType.pointerT _ => true
  | _ => false

/-- Whether a type is a character type (`ASRUtils::is_character`).  The
excerpt shows `is_character` holds past wrappers: a `Pointer`/`Allocatable`
to a string satisfies it (asr_verify.cpp lines 714-724, where the
deferred-length branch then requires the type to be allocatable or pointer),
and so does an array of strings (line 1201); so the test digs through
`Array`, `Pointer` and `Allocatable` down to the underlying type. -/
def isStringT : TType → Bool
  | TType.stringScalar => true
  | TType.arrayT e _ _ => isStringT e
  | TType.pointerT t => isStringT t
  | TType.allocatableT t => isStringT t
  | _ => false

/-- Models `ASRUtils::extract_dimensions_from_ttype` (outside the excerpt):
the dimensions of the array found past `Pointer`/`Allocatable` wrappers, `[]`
for scalars. -/
def dimsOfT : TType → List ADim
  | TType.arrayT _ d _ => d
  | TType.pointerT t => dimsOfT t
  | TType.allocatableT t => dimsOfT t
  | _ => []

/-- Embeds the recursive type-shape walk of the Verifier restricted to the
checks of `visit_Array`, `visit_Pointer` and `visit_Allocatable`
(asr_verify.cpp lines 1231-1273), with `visit_ttype` descending into the
element type.  `visit_Array` requires: no `Allocatable` element, at least one
dimension, no nested `Array`, and a character element type not stored as
`FixedSizeArray`.  `visit_Pointer` requires: no `Allocatable` inside, and a
wrapped `Array` to have fully deferred shape (no start, no length on any
dimension).  `visit_Allocatable` requires: neither `Pointer` nor
`Allocatable` inside, and every dimension length absent.  The scalar leaves
have no shape checks of their own. -/
def checkTypeShapes : TType → Bool
  | TType.arrayT e dims phys =>
    !(isAllocT e) && checkTypeShapes e && decide (dims ≠ []) && !(isArrayT e) &&
      (!(isStringT e) || decide (phys ≠ ArrayPhys.FixedSizeArray))
  | TType.pointerT t =>
    !(isAllocT t) &&
      (match t with
       | TType.arrayT _ dims _ => dims.all (fun d => !d.hasStart && !d.hasLength)
       | _ => true) &&
      checkTypeShapes t
  | TType.allocatableT t =>
    !(isPointerT t) && !(isAllocT t) &&
      (dimsOfT t).all (fun d => !d.hasLength) &&
      checkTypeShapes t
  | _ => true

/-- All subterms of a type tree (the tree itself and, recursively, the wrapped
element types). -/
def subtypesOf : TType → List TType
  | TType.arrayT e d p => TType.arrayT e d p :: subtypesOf e
  | TType.pointerT t => TType.pointerT t :: subtypesOf t
  | TType.allocatableT t => TType.allocatableT t :: subtypesOf t
  | t => [t]

/-- The local bad shapes exactly as the claim lists them: an `Allocatable` or
`Pointer` directly inside the other, an `Array` wrapping an `Allocatable` or
another `Array`, an `Array` with zero dimensions, a `Pointer` wrapping an
`Array` with any start or length bound present, and an `Allocatable` wrapping
a type with any dimension length present. -/
def badShapeAsClaimed : TType → Bool
  | TType.arrayT e dims _ => isAllocT e || isArrayT e || decide (dims = [])
  | TType.pointerT t =>
    isAllocT t ||
      (match t with
       | TType.arrayT _ dims _ => dims.any (fun d => d.hasStart || d.hasLength)
       | _ => false)
  | TType.allocatableT t => isPointerT t || (dimsOfT t).any (fun d => d.hasLength)
  | _ => false

/-- The local bad shapes actually rejected by the code: in addition to the
claim's list, an `Allocatable` directly inside an `Allocatable`, and an
`Array` of character element type with the `FixedSizeArray` physical kind. -/
def badShapeAmended : TType → Bool
  | TType.arrayT e dims phys =>
    isAllocT e || isArrayT e || decide (dims = []) ||
      (isStringT e && decide (phys = ArrayPhys.FixedSizeArray))
  | TType.pointerT t =>
    isAllocT t ||
      (match t with
       | TType.arrayT _ dims _ => dims.any (fun d => d.hasStart || d.hasLength)
       | _ => false)
  | TType.allocatableT t =>
    isPointerT t || isAllocT t || (dimsOfT t).any (fun d => d.hasLength)
  | _ => false

/-- C6 counterexample: a one-dimensional array of characters with the
`FixedSizeArray` physical kind exhibits none of the bad shapes listed by the
claim — so the claim asserts it passes the type-shape checks — yet
`visit_Array` rejects it (its character/`FixedSizeArray` rule, asr_verify.cpp
lines 1237-1240, is not in the claim's list). -/
theorem C6_type_shape_counterexample :
    ((subtypesOf (TType.arrayT TType.stringScalar [⟨false, false⟩]
        ArrayPhys.FixedSizeArray)).all
      (fun s => !(badShapeAsClaimed s)) = true) ∧
    checkTypeShapes (TType.arrayT TType.stringScalar [⟨false, false⟩]
        ArrayPhys.FixedSizeArray) = false := by
  exact ⟨rfl, rfl⟩

/-- C6 (amended): the type-shape checks accept a type tree exactly when no
subterm exhibits a bad shape, where the bad shapes are the claim's list
extended with the two rejections the code also performs: `Allocatable`
directly inside `Allocatable`, and a character `Array` with `FixedSizeArray`
physical kind. -/
theorem C6_checkTypeShapes_iff (t : TType) :
    checkTypeShapes t = true ↔ ∀ s ∈ subtypesOf t, badShapeAmended s = false := by
  induction t with
  | intScalar => simp [checkTypeShapes, subtypesOf, badShapeAmended]
  | stringScalar => simp [checkTypeShapes, subtypesOf, badShapeAmended]
  | otherScalar => simp [checkTypeShapes, subtypesOf, badShapeAmended]
  | arrayT e dims phys ih =>
    simp only [checkTypeShapes, subtypesOf, List.mem_cons, Bool.and_eq_true,
      Bool.not_eq_true', Bool.or_eq_true, decide_eq_true_eq]
    constructor
    · rintro ⟨⟨⟨⟨ha, hc⟩, hd⟩, har⟩, hs⟩
      intro s hs2
      rcases hs2 with rfl | hmem
      · rcases hs with h1 | h1 <;> simp [badShapeAmended, ha, har, hd, h1]
      · exact (ih.mp hc) s hmem
    · intro h
      have hroot := h _ (Or.inl rfl)
      simp only [badShapeAmended, Bool.or_eq_false_iff, decide_eq_false_iff_not,
        Bool.and_eq_false_iff] at hroot
      exact ⟨⟨⟨⟨hroot.1.1.1, ih.mpr (fun s hs2 => h s (Or.inr hs2))⟩, hroot.1.2⟩,
        hroot.1.1.2⟩, hroot.2⟩
  | pointerT t ih =>
    simp only [checkTypeShapes, subtypesOf, List.mem_cons, Bool.and_eq_true]
    constructor
    · rintro ⟨⟨ha, hdef⟩, hc⟩
      intro s hs2
      rcases hs2 with rfl | hmem
      · simp only [badShapeAmended, Bool.or_eq_false_iff]
        refine ⟨by simpa using ha, ?_⟩
        rcases t with _ | _ | _ | ⟨e2, dims2, phys2⟩ | t2 | t2 <;> simp at hdef ⊢
        intro d hd
        have := hdef d hd
        simp at this
        simp [this.1, this.2]
      · exact (ih.mp hc) s hmem
    · intro h
      have hroot := h _ (Or.inl rfl)
      simp only [badShapeAmended, Bool.or_eq_false_iff] at hroot
      refine ⟨⟨by simpa using hroot.1, ?_⟩, ih.mpr (fun s hs2 => h s (Or.inr hs2))⟩
      rcases t with _ | _ | _ | ⟨e2, dims2, phys2⟩ | t2 | t2 <;> simp at hroot ⊢
      intro d hd
      have := hroot.2 d hd
      simp [this.1, this.2]
  | allocatableT t ih =>
    simp only [checkTypeShapes, subtypesOf, List.mem_cons, Bool.and_eq_true]
    constructor
    · rintro ⟨⟨⟨hp, ha⟩, hlen⟩, hc⟩
      intro s hs2
      rcases hs2 with rfl | hmem
      · have h1 : isPointerT t = false := by simpa using hp
        have h2 : isAllocT t = false := by simpa using ha
        have h3 : ((dimsOfT t).any fun d => d.hasLength) = false := by
          simp only [List.any_eq_false]
          intro d hd
          simpa using (List.all_eq_true.mp hlen) d hd
        simp [badShapeAmended, h1, h2, h3]
      · exact (ih.mp hc) s hmem
    · intro h
      have hroot := h _ (Or.inl rfl)
      simp only [badShapeAmended, Bool.or_eq_false_iff] at hroot
      obtain ⟨⟨h1, h2⟩, h3⟩ := hroot
      refine ⟨⟨⟨by simpa using h1, by simpa using h2⟩, ?_⟩,
        ih.mpr (fun s hs2 => h s (Or.inr hs2))⟩
      simp only [List.all_eq_true]
      intro d hd
      have := List.any_eq_false.mp h3 d hd
      simpa using this

/- ===================================================================
   C2.  SymbolTableVisitor::process_generic_proc_custom_op.
   =================================================================== -/

/-- A constituent procedure symbol of a `GenericProcedure`/`CustomOperator`
aggregate: `id` models the symbol's pointer identity (the identity compared by
`ASRUtils::present`), `pname` its `ASRUtils::symbol_name`. -/
structure ProcSym where
  id : Nat
  pname : String
deriving DecidableEq, Repr

/-- The constituent-merging loop of
`SymbolTableVisitor::process_generic_proc_custom_op` when the existing local
binding is an `ExternalSymbol` (asr_verify.cpp lines 4396-4446): each
constituent name of both aggregates is resolved in the current scope and the
resolved symbol is appended only when not already present.  `ρ` models
`current_scope->resolve_symbol` (in `containers.h`, outside the excerpt); the
`none` result stands for the not-modeled recursive-import path taken when a
name does not resolve (lines 4407-4417 and 4427-4437). -/
def merge_resolved_dedup (ρ : String → Option ProcSym) :
    List ProcSym → List ProcSym → Option (List ProcSym)
  | acc, [] => some acc
  | acc, p :: rest =>
    match ρ p.pname with
    | none => none
    | some m => merge_resolved_dedup ρ (if m ∈ acc then acc else acc ++ [m]) rest

/-- Embeds the `ExternalSymbol` branch of `process_generic_proc_custom_op`
(asr_verify.cpp lines 4396-4446): the new aggregate's constituent list built
from the existing aggregate's constituents followed by the imported
aggregate's constituents, both resolved and deduplicated. -/
def process_generic_proc_existing_external (ρ : String → Option ProcSym)
    (gpProcs gpExtProcs : List ProcSym) : Option (List ProcSym) :=
  match merge_resolved_dedup ρ [] gpProcs with
  | none => none
  | some acc => merge_resolved_dedup ρ acc gpExtProcs

/-- The constituent-merging loop of `process_generic_proc_custom_op` when the
existing local binding is a non-external aggregate (asr_verify.cpp lines
4448-4478): after the guarded duplicate-avoiding push of a resolved imported
constituent (lines 4472-4474), the code pushes the same symbol once more
unconditionally (line 4475). -/
def merge_resolved_double_push (ρ : String → Option ProcSym) :
    List ProcSym → List ProcSym → Option (List ProcSym)
  | acc, [] => some acc
  | acc, p :: rest =>
    match ρ p.pname with
    | none => none
    | some m =>
      merge_resolved_double_push ρ ((if m ∈ acc then acc else acc ++ [m]) ++ [m]) rest

/-- Embeds the local-aggregate branch of `process_generic_proc_custom_op`
(asr_verify.cpp lines 4448-4478): the existing aggregate's constituents are
kept verbatim (lines 4453-4455) and the imported aggregate's constituents are
merged by `merge_resolved_double_push`. -/
def process_generic_proc_existing_local (ρ : String → Option ProcSym)
    (gpProcs gpExtProcs : List ProcSym) : Option (List ProcSym) :=
  merge_resolved_double_push ρ gpProcs gpExtProcs

/-- Concrete constituent symbols for evaluating the merge. -/
def pSymC2 : ProcSym := ⟨1, "p"⟩

def qSymC2 : ProcSym := ⟨2, "q"⟩

/-- A resolution environment in which both constituent names resolve. -/
def resolveC2 : String → Option ProcSym :=
  fun s => if s = "p" then some pSymC2 else if s = "q" then some qSymC2 else none

/-- C2: evaluation of the merge at the failing input.  Merging an imported
aggregate with constituent list [p] into a scope whose existing binding is a
local (non-external) aggregate with constituents [q] produces [q, p, p] — the
constituent p is pushed twice by the unconditional push at line 4475 — and
merging [p] into an existing [p] produces [p, p], so importing the same
aggregate again duplicates every constituent; the claimed duplicate-free
union would be [q, p] and [p].  The `ExternalSymbol` branch, by contrast,
produces the duplicate-free [q, p]. -/
theorem C2_local_merge_duplicates :
    process_generic_proc_existing_local resolveC2 [qSymC2] [pSymC2] =
      some [qSymC2, pSymC2, pSymC2] ∧
    process_generic_proc_existing_local resolveC2 [pSymC2] [pSymC2] =
      some [pSymC2, pSymC2] ∧
    process_generic_proc_existing_external resolveC2 [qSymC2] [pSymC2] =
      some [qSymC2, pSymC2] := by
  refine ⟨?_, ?_, ?_⟩ <;> decide

/- ===================================================================
   C3.  `use` imports: import_all vs import_symbols_util shadowing.
   =================================================================== -/

/-- The `ASR::accessType` of a module symbol. -/
inductive MAccess
  | publicAccess
  | privateAccess
deriving DecidableEq, Repr

/-- Lowercases one ASCII character, as `to_lower` from the libasr string
utilities (outside the excerpt) does per character. -/
def lowerChar (c : Char) : Char :=
  if 'A' ≤ c ∧ c ≤ 'Z' then Char.ofNat (c.toNat + 32) else c

/-- Models `to_lower` on strings. -/
def to_lower (s : String) : String := ⟨s.data.map lowerChar⟩

/-- A symbol of the used module's symbol table, carrying the attributes that
`SymbolTableVisitor::import_all` (asr_verify.cpp lines 4230-4386) reads:
`mname` is the symbol's own `m_name`; aggregates and structs carry their
constituent-procedure / method names for `get_indirect_public_symbols`;
`externalS` carries the module and original name copied on repacking (its
target pointer is not modeled — no modeled check reads it). -/
inductive ModuleSymbol
  | functionS (mname : String) (access : MAccess)
  | genericProcS (mname : String) (access : MAccess) (procNames : List String)
  | customOpS (mname : String) (access : MAccess) (procNames : List String)
  | variableS (mname : String) (access : MAccess)
  | externalS (extModuleName : String) (origName : String)
  | structS (mname : String) (access : MAccess) (methodNames : List String)
  | requirementS (mname : String)
  | templateS (mname : String)
  | unionS (mname : String)
  | enumS (mname : String)
  | otherS
deriving DecidableEq, Repr

/-- The fields of an `ExternalSymbol` created in the current scope by a `use`
import: its `a_name`, the `module_name` and the `original_name`. -/
structure CreatedExternal where
  localName : String
  moduleName : String
  originalName : String
deriving DecidableEq, Repr

/-- A symbol bound in the current scope: either a symbol that was already
there before the import (identified by an id) or an `ExternalSymbol` created
by an import. -/
inductive ScopeSymbol
  | preexisting (id : Nat)
  | externalRef (e : CreatedExternal)
deriving DecidableEq, Repr

/-- The current scope: an association list from name to symbol (the
`SymbolTable` map, iteration order preserved). -/
abbrev Scope := List (String × ScopeSymbol)

/-- `SymbolTable::get_symbol`: local lookup. -/
def scopeGet : Scope → String → Option ScopeSymbol
  | [], _ => none
  | (k2, v2) :: rest, k => if k = k2 then some v2 else scopeGet rest k

/-- `SymbolTable::add_symbol` / `add_or_overwrite_symbol`: bind a name,
overwriting an existing binding in place, appending otherwise. -/
def scopeSet : Scope → String → ScopeSymbol → Scope
  | [], k, v => [(k, v)]
  | (k2, v2) :: rest, k, v =>
    if k = k2 then (k, v) :: rest else (k2, v2) :: scopeSet rest k v

/-- `SymbolTable::erase_symbol`: drop a binding. -/
def scopeErase : Scope → String → Scope
  | [], _ => []
  | (k2, v2) :: rest, k => if k = k2 then rest else (k2, v2) :: scopeErase rest k

theorem scopeGet_scopeSet_self (sc : Scope) (k : String) (v : ScopeSymbol) :
    scopeGet (scopeSet sc k v) k = some v := by
  induction sc with
  | nil => simp [scopeSet, scopeGet]
  | cons p rest ih =>
    obtain ⟨k2, v2⟩ := p
    by_cases h : k = k2
    · simp [scopeSet, scopeGet, h]
    · simp [scopeSet, scopeGet, h, ih]

theorem scopeGet_scopeSet_ne (sc : Scope) (k k2 : String) (v : ScopeSymbol)
    (h : k ≠ k2) : scopeGet (scopeSet sc k2 v) k = scopeGet sc k := by
  induction sc with
  | nil => simp [scopeSet, scopeGet, h]
  | cons p rest ih =>
    obtain ⟨k3, v3⟩ := p
    by_cases h2 : k2 = k3
    · subst h2
      simp [scopeSet, scopeGet, h]
    · by_cases h3 : k = k3
      · subst h3
        simp [scopeSet, scopeGet, h2]
      · simp [scopeSet, scopeGet, h2, h3, ih]

/-- Embeds `SymbolTableVisitor::get_indirect_public_symbols` (asr_verify.cpp
lines 4199-4228): the `std::set` of names of struct methods of non-private
structs and of constituent procedures of non-private generic procedures and
custom operators. -/
def get_indirect_public_symbols (ms : List (String × ModuleSymbol)) : List String :=
  ms.foldl (fun acc e =>
    match e.2 with
    | ModuleSymbol.structS _ access methods =>
      if access ≠ MAccess.privateAccess then
        methods.foldl (fun a n => insertSortedSet n a) acc
      else acc
    | ModuleSymbol.genericProcS _ access procs =>
      if access ≠ MAccess.privateAccess then
        procs.foldl (fun a n => insertSortedSet n a) acc
      else acc
    | ModuleSymbol.customOpS _ access procs =>
      if access ≠ MAccess.privateAccess then
        procs.foldl (fun a n => insertSortedSet n a) acc
      else acc
    | _ => acc) []

/-- One iteration body of the `import_all` loop once the skip guards have
passed: the dispatch on the module symbol kind (asr_verify.cpp lines
4246-4383).  An `ExternalSymbol` is added according to the symbol kind:
functions (skipped when private and not indirectly public), generic
procedures, custom operators (added under the non-lowercased name, line
4287), public variables (also private ones when importing into a submodule),
repacked external symbols, structs, requirements, templates and unions;
enums are skipped; any other kind makes `import_all` return the offending
name (modeled as `Except.error`, the caller throws). -/
def import_one (modName : String) (ips : List String) (to_submodule : Bool)
    (key : String) (sym : ModuleSymbol) (sc : Scope) : Except String Scope :=
  match sym with
  | ModuleSymbol.functionS mn access =>
    if access = MAccess.privateAccess ∧ key ∉ ips then
      Except.ok sc
    else
      Except.ok (scopeSet sc (to_lower mn) (ScopeSymbol.externalRef ⟨mn, modName, mn⟩))
  | ModuleSymbol.genericProcS mn _ _ =>
    Except.ok (scopeSet sc (to_lower mn) (ScopeSymbol.externalRef ⟨mn, modName, mn⟩))
  | ModuleSymbol.customOpS mn _ _ =>
    Except.ok (scopeSet sc mn (ScopeSymbol.externalRef ⟨mn, modName, mn⟩))
  | ModuleSymbol.variableS mn access =>
    if access = MAccess.publicAccess ∨ to_submodule then
      Except.ok (scopeSet sc (to_lower mn) (ScopeSymbol.externalRef ⟨mn, modName, mn⟩))
    else
      Except.ok sc
  | ModuleSymbol.externalS extMod orig =>
    Except.ok (scopeSet sc key (ScopeSymbol.externalRef ⟨key, extMod, orig⟩))
  | ModuleSymbol.structS mn _ _ =>
    Except.ok (scopeSet sc key (ScopeSymbol.externalRef ⟨key, modName, mn⟩))
  | ModuleSymbol.requirementS mn =>
    Except.ok (scopeSet sc key (ScopeSymbol.externalRef ⟨key, modName, mn⟩))
  | ModuleSymbol.templateS mn =>
    Except.ok (scopeSet sc key (ScopeSymbol.externalRef ⟨key, modName, mn⟩))
  | ModuleSymbol.unionS mn =>
    Except.ok (scopeSet sc key (ScopeSymbol.externalRef ⟨key, modName, mn⟩))
  | ModuleSymbol.enumS _ => Except.ok sc
  | ModuleSymbol.otherS => Except.error key

/-- The loop of `SymbolTableVisitor::import_all` (asr_verify.cpp lines
4236-4385), one module-scope entry after the other.  An entry whose key is in
`already` (symbols already imported with renaming, line 4237) or already
bound in the current scope (line 4243) is skipped — no diagnostic, no
rebinding; otherwise `import_one` processes it. -/
def import_all_go (modName : String) (ips : List String) (to_submodule : Bool)
    (already : List String) :
    List (String × ModuleSymbol) → Scope → Except String Scope
  | [], sc => Except.ok sc
  | (key, sym) :: rest, sc =>
    if key ∈ already then import_all_go modName ips to_submodule already rest sc
    else if (scopeGet sc key).isSome then import_all_go modName ips to_submodule already rest sc
    else
      match import_one modName ips to_submodule key sym sc with
      | Except.error e => Except.error e
      | Except.ok sc2 => import_all_go modName ips to_submodule already rest sc2

/-- Embeds `SymbolTableVisitor::import_all` (asr_verify.cpp lines 4230-4386).
`ms` is the used module's symbol table as an ordered association list. -/
def import_all (modName : String) (ms : List (String × ModuleSymbol))
    (to_submodule : Bool) (already : List String) (sc : Scope) : Except String Scope :=
  import_all_go modName (get_indirect_public_symbols ms) to_submodule already ms sc

/-- The shadow warning text of `import_symbols_util` (asr_verify.cpp lines
4526, 4567, 4594, 4639). -/
def shadow_warning (local_sym modName : String) : String :=
  "Symbol \x27" ++ local_sym ++ "\x27 from module \x27" ++ modName ++
    "\x27 shadows \x27" ++ local_sym ++ "\x27 in the current scope"

/-- Embeds the subroutine branch of `SymbolTableVisitor::import_symbols_util`
(asr_verify.cpp lines 4522-4549; the remote symbol is a `Function` without a
return variable): when the local name is already bound, emit the shadow
warning and erase the binding, then add an `ExternalSymbol` to the module
subroutine under the local name.  Returns the new scope and the warnings
emitted. -/
def import_subroutine_branch (modName mname : String) (local_sym : String)
    (sc : Scope) : Scope × List String :=
  let pre :=
    match scopeGet sc local_sym with
    | some _ => (scopeErase sc local_sym, [shadow_warning local_sym modName])
    | none => (sc, [])
  (scopeSet pre.1 local_sym (ScopeSymbol.externalRef ⟨local_sym, modName, mname⟩), pre.2)

/-- Embeds the variable branch of `SymbolTableVisitor::import_symbols_util`
(asr_verify.cpp lines 4591-4624): shadow warning and erase for an existing
binding, then an error for a private variable, otherwise the `ExternalSymbol`
is added under the local name. -/
def import_variable_branch (modName mname : String) (access : MAccess)
    (local_sym : String) (sc : Scope) : Except String (Scope × List String) :=
  let pre :=
    match scopeGet sc local_sym with
    | some _ => (scopeErase sc local_sym, [shadow_warning local_sym modName])
    | none => (sc, [])
  if access = MAccess.privateAccess then
    Except.error ("Private variable \x60" ++ local_sym ++ "\x60 cannot be imported")
  else
    Except.ok
      (scopeSet pre.1 local_sym (ScopeSymbol.externalRef ⟨local_sym, modName, mname⟩), pre.2)

/-- C3 counterexample: an import-all (`use m` with no symbol list) of a module
exporting the public variable foo into a scope that already binds foo leaves
the scope completely unchanged — the existing binding is kept, no
`ExternalSymbol` replaces it and no diagnostic is produced (the loop
`continue`s at asr_verify.cpp line 4243) — contradicting the claim that every
`use` import of an already-bound name warns and rebinds. -/
theorem C3_import_all_skips_bound_names :
    import_all "m" [("foo", ModuleSymbol.variableS "foo" MAccess.publicAccess)] false []
        [("foo", ScopeSymbol.preexisting 0)] =
      Except.ok [("foo", ScopeSymbol.preexisting 0)] := by
  rfl

/-- The key under which each `import_all` branch binds its new symbol, when
that key is not simply the module-scope key of the entry. -/
def moduleEntryAddKey : ModuleSymbol → Option String
  | ModuleSymbol.functionS mn _ => some (to_lower mn)
  | ModuleSymbol.genericProcS mn _ _ => some (to_lower mn)
  | ModuleSymbol.customOpS mn _ _ => some mn
  | ModuleSymbol.variableS mn _ => some (to_lower mn)
  | _ => none

theorem import_one_preserves (modName : String) (ips : List String) (tsub : Bool)
    (key : String) (sym : ModuleSymbol) (sc sc2 : Scope) (k : String)
    (hcanon : ∀ k2, moduleEntryAddKey sym = some k2 → k2 = key)
    (hne : k ≠ key)
    (h : import_one modName ips tsub key sym sc = Except.ok sc2) :
    scopeGet sc2 k = scopeGet sc k := by
  rcases sym with ⟨mn, acc⟩ | ⟨mn, acc, procs⟩ | ⟨mn, acc, procs⟩ | ⟨mn, acc⟩ |
    ⟨extMod, orig⟩ | ⟨mn, acc, methods⟩ | mn | mn | mn | mn | _
  · by_cases h3 : acc = MAccess.privateAccess ∧ key ∉ ips
    · simp only [import_one, if_pos h3, Except.ok.injEq] at h
      rw [← h]
    · simp only [import_one, if_neg h3, Except.ok.injEq] at h
      rw [← h, hcanon _ rfl, scopeGet_scopeSet_ne sc k key _ hne]
  · simp only [import_one, Except.ok.injEq] at h
    rw [← h, hcanon _ rfl, scopeGet_scopeSet_ne sc k key _ hne]
  · simp only [import_one, Except.ok.injEq] at h
    rw [← h, hcanon _ rfl, scopeGet_scopeSet_ne sc k key _ hne]
  · by_cases h3 : acc = MAccess.publicAccess ∨ tsub = true
    · simp only [import_one, if_pos h3, Except.ok.injEq] at h
      rw [← h, hcanon _ rfl, scopeGet_scopeSet_ne sc k key _ hne]
    · simp only [import_one, if_neg h3, Except.ok.injEq] at h
      rw [← h]
  · simp only [import_one, Except.ok.injEq] at h
    rw [← h, scopeGet_scopeSet_ne sc k key _ hne]
  · simp only [import_one, Except.ok.injEq] at h
    rw [← h, scopeGet_scopeSet_ne sc k key _ hne]
  · simp only [import_one, Except.ok.injEq] at h
    rw [← h, scopeGet_scopeSet_ne sc k key _ hne]
  · simp only [import_one, Except.ok.injEq] at h
    rw [← h, scopeGet_scopeSet_ne sc k key _ hne]
  · simp only [import_one, Except.ok.injEq] at h
    rw [← h, scopeGet_scopeSet_ne sc k key _ hne]
  · simp only [import_one, Except.ok.injEq] at h
    rw [← h]
  · simp only [import_one] at h
    cases h

theorem import_all_go_preserves (modName : String) (ips : List String) (tsub : Bool)
    (already : List String) (k : String) (s : ScopeSymbol) :
    ∀ ms : List (String × ModuleSymbol),
      (∀ p ∈ ms, ∀ k2, moduleEntryAddKey p.2 = some k2 → k2 = p.1) →
      ∀ sc, scopeGet sc k = some s →
      ∀ sc2, import_all_go modName ips tsub already ms sc = Except.ok sc2 →
        scopeGet sc2 k = some s := by
  intro ms
  induction ms with
  | nil =>
    intro _ sc hk sc2 h
    simp only [import_all_go] at h
    cases h
    exact hk
  | cons p rest ih =>
    obtain ⟨key, sym⟩ := p
    intro hcanon sc hk sc2 h
    have hrest : ∀ p ∈ rest, ∀ k2, moduleEntryAddKey p.2 = some k2 → k2 = p.1 :=
      fun p hp => hcanon p (List.mem_cons_of_mem _ hp)
    simp only [import_all_go] at h
    by_cases h1 : key ∈ already
    · rw [if_pos h1] at h
      exact ih hrest sc hk sc2 h
    · rw [if_neg h1] at h
      by_cases h2 : (scopeGet sc key).isSome
      · rw [if_pos h2] at h
        exact ih hrest sc hk sc2 h
      · rw [if_neg h2] at h
        have hkne : k ≠ key := by
          intro hkk
          rw [← hkk, hk] at h2
          exact h2 (by simp)
        rcases hone : import_one modName ips tsub key sym sc with e | scmid
        · rw [hone] at h
          cases h
        · rw [hone] at h
          have hmid : scopeGet scmid k = some s := by
            rw [import_one_preserves modName ips tsub key sym sc scmid k
              (fun k2 hk2 => hcanon _ (List.mem_cons_self _ _) k2 hk2) hkne hone]
            exact hk
          exact ih hrest scmid hmid sc2 h

/-- C3 (amended): in the explicit symbol-list form of `use`, importing a
module subroutine or a public module variable under a local name that is
already bound emits exactly the shadow warning and replaces the binding with
the new `ExternalSymbol`; in the import-all form, every module entry whose
key is already bound in the current scope is skipped, so the existing
binding survives unchanged (for any module scope whose entries are bound
under their canonical keys). -/
theorem C3_use_import_shadowing :
    (∀ modName mname local_sym sc s, scopeGet sc local_sym = some s →
      (import_subroutine_branch modName mname local_sym sc).2 =
          [shadow_warning local_sym modName] ∧
      scopeGet (import_subroutine_branch modName mname local_sym sc).1 local_sym =
          some (ScopeSymbol.externalRef ⟨local_sym, modName, mname⟩)) ∧
    (∀ modName mname local_sym sc s, scopeGet sc local_sym = some s →
      import_variable_branch modName mname MAccess.publicAccess local_sym sc =
        Except.ok (scopeSet (scopeErase sc local_sym) local_sym
            (ScopeSymbol.externalRef ⟨local_sym, modName, mname⟩),
          [shadow_warning local_sym modName])) ∧
    (∀ modName ms tsub already sc k s,
      (∀ p ∈ ms, ∀ k2, moduleEntryAddKey p.2 = some k2 → k2 = p.1) →
      scopeGet sc k = some s →
      ∀ sc2, import_all modName ms tsub already sc = Except.ok sc2 →
        scopeGet sc2 k = some s) := by
  refine ⟨?_, ?_, ?_⟩
  · intro modName mname local_sym sc s hs
    unfold import_subroutine_branch
    rw [hs]
    exact ⟨rfl, scopeGet_scopeSet_self _ _ _⟩
  · intro modName mname local_sym sc s hs
    unfold import_variable_branch
    rw [hs]
    rfl
  · intro modName ms tsub already sc k s hcanon hk sc2 h
    exact import_all_go_preserves modName (get_indirect_public_symbols ms) tsub already k s
      ms hcanon sc hk sc2 h

/-- Witness for C3 at concrete inputs: importing subroutine sub and variable v
from module m under the bound name foo warns and rebinds, and an import-all
over a module with one canonical entry keeps a bound name bound to its old
symbol. -/
theorem C3_use_import_shadowing_witness :
    ((import_subroutine_branch "m" "sub" "foo" [("foo", ScopeSymbol.preexisting 0)]).2 =
        [shadow_warning "foo" "m"] ∧
      scopeGet (import_subroutine_branch "m" "sub" "foo"
          [("foo", ScopeSymbol.preexisting 0)]).1 "foo" =
        some (ScopeSymbol.externalRef ⟨"foo", "m", "sub"⟩)) ∧
    import_variable_branch "m" "v" MAccess.publicAccess "foo"
        [("foo", ScopeSymbol.preexisting 0)] =
      Except.ok ([("foo", ScopeSymbol.externalRef ⟨"foo", "m", "v"⟩)],
        [shadow_warning "foo" "m"]) ∧
    scopeGet [("foo", ScopeSymbol.preexisting 0), ("bar", ScopeSymbol.externalRef
        ⟨"bar", "m", "bar"⟩)] "foo" = some (ScopeSymbol.preexisting 0) := by
  refine ⟨C3_use_import_shadowing.1 "m" "sub" "foo" [("foo", ScopeSymbol.preexisting 0)]
      (ScopeSymbol.preexisting 0) (by decide), ?_, by decide⟩
  have h := C3_use_import_shadowing.2.1 "m" "v" "foo" [("foo", ScopeSymbol.preexisting 0)]
    (ScopeSymbol.preexisting 0) (by decide)
  rw [h]
  rfl

end LFortranVerify
